import Mathlib

/-!
Shallow embedding of the aptcheckr repository (src/check.rs, src/lib.rs,
src/main.rs) and proofs about its checking algorithm.

External collaborators (the libapt index provider, the etag probe of
artifact URLs, the release-descriptor fetch and the file persistence)
are modelled as oracles collected in an `Env` record; the checker itself
is translated statement by statement from src/check.rs into explicit
state passing over the `AptCheck` record.
-/

namespace Aptcheckr

/-- Architecture tags of libapt; `Source` is the reserved sentinel used for
source-only findings, every other platform tag is carried as its name. -/
inductive Architecture where
  | Source : Architecture
  | Arch : String → Architecture
deriving DecidableEq, Repr

def Architecture.show : Architecture → String
  | .Source => "source"
  | .Arch s => s

instance : ToString Architecture := ⟨Architecture.show⟩

/-- Error categories of libapt used by the checker. -/
inductive ErrorType where
  | Download : ErrorType
  | ApiUsage : ErrorType
deriving DecidableEq, Repr

/-- libapt error value: a message plus a category. -/
structure Error where
  message : String
  etype : ErrorType
deriving DecidableEq, Repr

def Error.new (message : String) (etype : ErrorType) : Error :=
  { message := message, etype := etype }

instance : ToString Error := ⟨fun e => e.message⟩

/-- Version relations of a dependency constraint (libapt `VersionRelation`);
src/check.rs only ever constructs `Exact`. -/
inductive VersionRelation where
  | Exact : VersionRelation
  | LessThan : VersionRelation
  | LessOrEqual : VersionRelation
  | GreaterThan : VersionRelation
  | GreaterOrEqual : VersionRelation
deriving DecidableEq, Repr

/-- libapt `PackageVersion`: a name plus optional relation/version filters,
used both for declared dependencies and for constructed source constraints. -/
structure PackageVersion where
  name : String
  architecture : Architecture
  relation : Option VersionRelation
  version : Option String
deriving DecidableEq, Repr

/-- An artifact link (libapt `Link`); only the URL is read by the checker. -/
structure Link where
  url : String
deriving DecidableEq, Repr

/-- A binary package entry as read from a `PackageIndex`. -/
structure Package where
  package : String
  version : String
  architecture : Architecture
  depends : List PackageVersion
  source : Option String
  link : Link
deriving DecidableEq, Repr

/-- A source package entry as read from a `SourceIndex`; `links` maps an
artifact kind to its URL. -/
structure SourcePackage where
  package : String
  links : List (String × Link)
deriving DecidableEq, Repr

/-- A parsed binary index: the set of names it lists, plus the lookup
`get(name, optional constraint)` it exposes. Immutable once built. -/
structure PackageIndex where
  names : List String
  get : String → Option PackageVersion → Option Package

/-- A parsed source index, same shape as `PackageIndex`. -/
structure SourceIndex where
  names : List String
  get : String → Option PackageVersion → Option SourcePackage

/-- The release descriptor: the component and architecture selections it
declares (libapt `Release`). -/
structure Release where
  components : List String
  architectures : List Architecture
deriving Repr

/-- Oracles for every external collaborator the checker calls into:
index building, artifact probing, compliance verdict, architecture
parsing and release fetching. Each run is deterministic relative to a
fixed `Env`. -/
structure Env where
  source_index : Release → String → Except Error SourceIndex
  package_index : Release → String → Architecture → Except Error PackageIndex
  get_etag : String → Except Error Unit
  check_compliance : Except Error Unit
  arch_from_str : String → Except Error Architecture
  from_distro : Except Error Release

/-- The `AptCheck` record of src/check.rs: selection, parsed indices and
the three finding collections. -/
structure AptCheck where
  release : Release
  components : List String
  architectures : List Architecture
  binary_indices : List PackageIndex
  source_indices : List (String × SourceIndex)
  issues : List (String × Architecture × Error)
  missing_packages : List (String × String × PackageVersion)
  missing_sources : List (String × String × String)
  check_files : Bool

/-- `HashMap::get` on the component-to-source-index map; the map is built
by prepending on `HashMap::insert`, so lookup takes the most recent
binding. -/
def getSourceIndex : List (String × SourceIndex) → String → Option SourceIndex
  | [], _ => none
  | (k, v) :: rest, c => if k = c then some v else getSourceIndex rest c

/-- The architecture-parsing loop of `AptCheck::new`: parse each requested
name in order, propagating the first failure. -/
def parseArchitectures (env : Env) : List String → Except Error (List Architecture)
  | [] => Except.ok []
  | a :: rest =>
    match env.arch_from_str a with
    | .error e => .error e
    | .ok arch =>
      match parseArchitectures env rest with
      | .error e => .error e
      | .ok tail => .ok (arch :: tail)

/-- `AptCheck::new` (src/check.rs): empty selections default to the
release's own lists; architecture names are parsed and may fail. -/
def AptCheck.new (env : Env) (release : Release) (components : List String)
    (architectures : List String) (check_files : Bool) : Except Error AptCheck :=
  match (if architectures.isEmpty then Except.ok release.architectures
         else parseArchitectures env architectures) with
  | .error e => .error e
  | .ok archs =>
    .ok { release := release,
          components := if components.isEmpty then release.components else components,
          architectures := archs,
          binary_indices := [], source_indices := [],
          issues := [], missing_packages := [], missing_sources := [],
          check_files := check_files }

/-- Message of a broken-artifact-link finding (both the source-link and the
binary-deb probe use this format in src/check.rs). -/
def brokenFileMessage (package : String) (url : String) (e : Error) : String :=
  s!"File {url} of source {package} is broken: {e}"

/-- Probe every artifact link of one source entry; each failed probe
appends one issue tagged with the `Source` sentinel. -/
def checkSourcePackageLinks (env : Env) (component : String) (s : AptCheck)
    (package : SourcePackage) : AptCheck :=
  package.links.foldl (fun s kl =>
    match env.get_etag kl.2.url with
    | .ok _ => s
    | .error e =>
      { s with issues := s.issues ++
          [(component, Architecture.Source,
            Error.new (brokenFileMessage package.package kl.2.url e) ErrorType.Download)] }) s

/-- Body of the per-source loop of `AptCheck::check_source_component`. -/
def checkSourceEntry (env : Env) (component : String) (index : SourceIndex)
    (s : AptCheck) (source : String) : AptCheck :=
  match index.get source none with
  | some package =>
    if s.check_files then checkSourcePackageLinks env component s package else s
  | none =>
    { s with issues := s.issues ++
        [(component, Architecture.Source,
          Error.new s!"Source {source} of component {component} is missing." ErrorType.Download)] }

/-- `AptCheck::check_source_component`: build the source index (the only
fallible step), validate each listed entry, then store the index. -/
def check_source_component (env : Env) (component : String) (s : AptCheck) :
    Except Error AptCheck :=
  match env.source_index s.release component with
  | .error e => .error e
  | .ok index =>
    let s := index.names.foldl (checkSourceEntry env component index) s
    .ok { s with source_indices := (component, index) :: s.source_indices }

/-- File-existence probe of a binary package's deb link; a failed probe
appends one issue tagged with the `Source` sentinel (not the index's
architecture). Skipped entirely when `check_files` is off. -/
def checkPackageFile (env : Env) (component : String) (s : AptCheck)
    (package : Package) : AptCheck :=
  if s.check_files then
    match env.get_etag package.link.url with
    | .ok _ => s
    | .error e =>
      { s with issues := s.issues ++
          [(component, Architecture.Source,
            Error.new (brokenFileMessage package.package package.link.url e)
              ErrorType.Download)] }
  else s

/-- Body of the dependency loop: resolve one declared constraint against
the package's own index; on failure append one missing-dependency record. -/
def dependStep (component : String) (index : PackageIndex) (package : Package)
    (s : AptCheck) (dependency : PackageVersion) : AptCheck :=
  match index.get dependency.name (some dependency) with
  | some _ => s
  | none =>
    { s with missing_packages :=
        s.missing_packages ++ [(component, package.package, dependency)] }

/-- Dependency loop of `AptCheck::check_binary_component`: each declared
constraint unresolvable in the same index appends one missing-dependency
record. -/
def checkPackageDepends (component : String) (index : PackageIndex) (s : AptCheck)
    (package : Package) : AptCheck :=
  package.depends.foldl (dependStep component index package) s

/-- The `Exact` constraint `vd` that the source check of a binary package
builds from the package's own architecture and version. -/
def exactSourceConstraint (source : String) (package : Package) : PackageVersion :=
  { name := source, architecture := package.architecture,
    relation := some VersionRelation.Exact, version := some package.version }

/-- Source check of one binary package: when the package declares a source
and the component's source index exists, resolve the source name under an
`Exact` constraint built from the package's own architecture and version;
otherwise skip with no finding. -/
def checkPackageSource (component : String) (s : AptCheck) (package : Package) :
    AptCheck :=
  match package.source with
  | some source =>
    match getSourceIndex s.source_indices component with
    | some source_index =>
      match source_index.get source (some (exactSourceConstraint source package)) with
      | some _ => s
      | none =>
        { s with missing_sources :=
            s.missing_sources ++ [(component, package.package, source)] }
    | none => s
  | none => s

/-- Body of the per-package loop of `AptCheck::check_binary_component`:
resolve the listed name (issue on provider inconsistency), then file
probe, dependency check and source check in that order. -/
def processBinaryPackage (env : Env) (component : String) (architecture : Architecture)
    (index : PackageIndex) (s : AptCheck) (name : String) : AptCheck :=
  match index.get name none with
  | none =>
    { s with issues := s.issues ++
        [(component, architecture,
          Error.new
            s!"Package {name} of component {component} and architecture {architecture} is missing."
            ErrorType.Download)] }
  | some package =>
    let s := checkPackageFile env component s package
    let s := checkPackageDepends component index s package
    checkPackageSource component s package

/-- `AptCheck::check_binary_component`: build the binary index (the only
fallible step) and process each listed package. -/
def check_binary_component (env : Env) (component : String)
    (architecture : Architecture) (s : AptCheck) : Except Error AptCheck :=
  match env.package_index s.release component architecture with
  | .error e => .error e
  | .ok index =>
    .ok (index.names.foldl (processBinaryPackage env component architecture index) s)

/-- Issue recorded at the Phase 1 unit boundary when a component's source
check fails. -/
def phase1Fail (component : String) (e : Error) (s : AptCheck) : AptCheck :=
  { s with issues := s.issues ++
      [(component, Architecture.Source,
        Error.new s!"Checking sources of component {component} failed: {e}"
          ErrorType.Download)] }

/-- Issue recorded at the Phase 2 unit boundary when a component/architecture
binary check fails. -/
def phase2Fail (component : String) (architecture : Architecture) (e : Error)
    (s : AptCheck) : AptCheck :=
  { s with issues := s.issues ++
      [(component, architecture,
        Error.new
          s!"Checking component {component} for architecture {architecture} failed: {e}"
          ErrorType.Download)] }

/-- One Phase 1 unit of `AptCheck::check`: the source check of one
component, with its error caught at the unit boundary. -/
def phase1Step (env : Env) (s : AptCheck) (component : String) : AptCheck :=
  match check_source_component env component s with
  | .ok s' => s'
  | .error e => phase1Fail component e s

/-- One Phase 2 unit of `AptCheck::check`: the binary check of one
component/architecture, skipping the `Source` sentinel, with its error
caught at the unit boundary. -/
def phase2Step (env : Env) (component : String) (s : AptCheck)
    (architecture : Architecture) : AptCheck :=
  if architecture = Architecture.Source then s
  else
    match check_binary_component env component architecture s with
    | .ok s' => s'
    | .error e => phase2Fail component architecture e s

/-- First loop of `AptCheck::check`: source checks for all components. -/
def phase1 (env : Env) (s : AptCheck) : AptCheck :=
  s.components.foldl (phase1Step env) s

/-- Second loop of `AptCheck::check`: binary checks for all components and
architectures. -/
def phase2 (env : Env) (s : AptCheck) : AptCheck :=
  s.components.foldl
    (fun s component => s.architectures.foldl (phase2Step env component) s) s

/-- `AptCheck::check`: the two sequenced loops; the function itself never
propagates an error. -/
def AptCheck.check (env : Env) (s : AptCheck) : Except Error AptCheck :=
  let s := phase1 env s
  let s := phase2 env s
  Except.ok s

/-- `AptCheck::cross_check`: the cross-component pass is a no-op stub. -/
def AptCheck.cross_check (s : AptCheck) : Except Error AptCheck :=
  Except.ok s

/-- `AptCheck::check_repo`: compliance verdict (logged only), the two
checking passes, then the success boolean computed from the three finding
collections. -/
def AptCheck.check_repo (env : Env) (s : AptCheck) : Except Error (Bool × AptCheck) :=
  let _compliance := env.check_compliance
  match AptCheck.check env s with
  | .error e => .error e
  | .ok s =>
    match AptCheck.cross_check s with
    | .error e => .error e
    | .ok s =>
      .ok (s.issues.isEmpty && s.missing_packages.isEmpty && s.missing_sources.isEmpty, s)

/-- The state a completed run leaves behind (Phase 2 after Phase 1). -/
def runState (env : Env) (s : AptCheck) : AptCheck :=
  phase2 env (phase1 env s)

/-- `save_as_json` of src/lib.rs: file creation, serialization and writing
are external; the oracle receives the frozen state and may fail. -/
def save_as_json (save : AptCheck → Except Error Unit) (check : AptCheck) :
    Except Error Unit :=
  save check

/-- `check_repo` of src/lib.rs: fetch the release, build the checker, run
it, persist the result, and return the success boolean. -/
def lib_check_repo (env : Env) (save : AptCheck → Except Error Unit)
    (components : List String) (architectures : List String)
    (check_files : Bool) : Except Error Bool :=
  match env.from_distro with
  | .error e => .error e
  | .ok release =>
    match AptCheck.new env release components architectures check_files with
    | .error e => .error e
    | .ok check =>
      match AptCheck.check_repo env check with
      | .error e => .error e
      | .ok result =>
        match save_as_json save result.2 with
        | .error e => .error e
        | .ok _ => .ok result.1

/-- The in-memory Report of a lib-level run: the checker state at the
moment `AptCheck::check_repo` returned, if execution got that far. -/
def lib_report (env : Env) (components : List String)
    (architectures : List String) (check_files : Bool) : Option AptCheck :=
  match env.from_distro with
  | .error _ => none
  | .ok release =>
    match AptCheck.new env release components architectures check_files with
    | .error _ => none
    | .ok check =>
      match AptCheck.check_repo env check with
      | .error _ => none
      | .ok result => some result.2

/-- The Report actually persisted to result.json, if the run reached the
save and the save succeeded. -/
def lib_saved_report (env : Env) (save : AptCheck → Except Error Unit)
    (components : List String) (architectures : List String)
    (check_files : Bool) : Option AptCheck :=
  match env.from_distro with
  | .error _ => none
  | .ok release =>
    match AptCheck.new env release components architectures check_files with
    | .error _ => none
    | .ok check =>
      match AptCheck.check_repo env check with
      | .error _ => none
      | .ok result =>
        match save_as_json save result.2 with
        | .error _ => none
        | .ok _ => some result.2

/-- Exit-code mapping of src/main.rs: success, findings, hard failure. -/
def exit_code (r : Except Error Bool) : Nat :=
  match r with
  | .ok true => 0
  | .ok false => 1
  | .error _ => 2

/-- Exit code of a full CLI run. -/
def main_exit (env : Env) (save : AptCheck → Except Error Unit)
    (components : List String) (architectures : List String)
    (check_files : Bool) : Nat :=
  exit_code (lib_check_repo env save components architectures check_files)

/-! ### Generic fold lemmas -/

theorem foldl_pres {α β γ : Type} (g : β → γ) (f : β → α → β)
    (h : ∀ s x, g (f s x) = g s) (l : List α) (s : β) :
    g (l.foldl f s) = g s := by
  induction l generalizing s with
  | nil => rfl
  | cons x xs ih => rw [List.foldl_cons, ih, h]

theorem foldl_inv {α β : Type} (P : β → Prop) (f : β → α → β)
    (h : ∀ s x, P s → P (f s x)) (l : List α) (s : β)
    (hs : P s) : P (l.foldl f s) := by
  induction l generalizing s with
  | nil => exact hs
  | cons x xs ih => exact ih (f s x) (h s x hs)

theorem foldl_hom2 {α β γ : Type} (proj : γ → β) (g : γ → α → γ) (f : β → α → β)
    (h : ∀ p x, proj (g p x) = f (proj p) x) (l : List α) (p : γ) :
    proj (l.foldl g p) = l.foldl f (proj p) := by
  induction l generalizing p with
  | nil => rfl
  | cons x xs ih =>
    simp only [List.foldl_cons]
    rw [ih, h]

theorem foldl_congr_inv {α β : Type} (P : β → Prop) (f g : β → α → β)
    (hP : ∀ s x, P s → P (f s x))
    (hfg : ∀ s x, P s → f s x = g s x) (l : List α) (s : β)
    (hs : P s) : l.foldl f s = l.foldl g s := by
  induction l generalizing s with
  | nil => rfl
  | cons x xs ih =>
    rw [List.foldl_cons, List.foldl_cons, ← hfg s x hs]
    exact ih (f s x) (hP s x hs)

theorem foldl_frame_issues {α : Type} {f : AptCheck → α → AptCheck}
    (hf : ∀ s x, ∃ is, f s x = { s with issues := is })
    (l : List α) (s : AptCheck) :
    ∃ is, l.foldl f s = { s with issues := is } := by
  induction l generalizing s with
  | nil => exact ⟨s.issues, rfl⟩
  | cons x xs ih =>
    obtain ⟨is1, h1⟩ := hf s x
    obtain ⟨is2, h2⟩ := ih (f s x)
    refine ⟨is2, ?_⟩
    rw [List.foldl_cons, h2, h1]

theorem foldl_frame_mp {α : Type} {f : AptCheck → α → AptCheck}
    (hf : ∀ s x, ∃ mp, f s x = { s with missing_packages := mp })
    (l : List α) (s : AptCheck) :
    ∃ mp, l.foldl f s = { s with missing_packages := mp } := by
  induction l generalizing s with
  | nil => exact ⟨s.missing_packages, rfl⟩
  | cons x xs ih =>
    obtain ⟨mp1, h1⟩ := hf s x
    obtain ⟨mp2, h2⟩ := ih (f s x)
    refine ⟨mp2, ?_⟩
    rw [List.foldl_cons, h2, h1]

theorem foldl_frame2 {α : Type} {f : AptCheck → α → AptCheck}
    (hf : ∀ s x, ∃ is si, f s x = { s with issues := is, source_indices := si })
    (l : List α) (s : AptCheck) :
    ∃ is si, l.foldl f s = { s with issues := is, source_indices := si } := by
  induction l generalizing s with
  | nil => exact ⟨s.issues, s.source_indices, rfl⟩
  | cons x xs ih =>
    obtain ⟨is1, si1, h1⟩ := hf s x
    obtain ⟨is2, si2, h2⟩ := ih (f s x)
    refine ⟨is2, si2, ?_⟩
    rw [List.foldl_cons, h2, h1]

theorem foldl_frame3 {α : Type} {f : AptCheck → α → AptCheck}
    (hf : ∀ s x, ∃ is mp ms, f s x =
      { s with issues := is, missing_packages := mp, missing_sources := ms })
    (l : List α) (s : AptCheck) :
    ∃ is mp ms, l.foldl f s =
      { s with issues := is, missing_packages := mp, missing_sources := ms } := by
  induction l generalizing s with
  | nil => exact ⟨s.issues, s.missing_packages, s.missing_sources, rfl⟩
  | cons x xs ih =>
    obtain ⟨is1, mp1, ms1, h1⟩ := hf s x
    obtain ⟨is2, mp2, ms2, h2⟩ := ih (f s x)
    refine ⟨is2, mp2, ms2, ?_⟩
    rw [List.foldl_cons, h2, h1]

/-! ### Frame lemmas: which fields each step of the checker can write -/

theorem checkSourcePackageLinks_frame (env : Env) (c : String) (s : AptCheck)
    (p : SourcePackage) :
    ∃ is, checkSourcePackageLinks env c s p = { s with issues := is } := by
  unfold checkSourcePackageLinks
  apply foldl_frame_issues
  intro s kl
  split
  · exact ⟨s.issues, rfl⟩
  · exact ⟨_, rfl⟩

theorem checkSourceEntry_frame (env : Env) (c : String) (index : SourceIndex)
    (s : AptCheck) (source : String) :
    ∃ is, checkSourceEntry env c index s source = { s with issues := is } := by
  unfold checkSourceEntry
  split
  · split
    · exact checkSourcePackageLinks_frame env c s _
    · exact ⟨s.issues, rfl⟩
  · exact ⟨_, rfl⟩

theorem check_source_component_ok (env : Env) (c : String) (s s' : AptCheck)
    (h : check_source_component env c s = .ok s') :
    ∃ index is, env.source_index s.release c = Except.ok index ∧
      s' = { s with issues := is, source_indices := (c, index) :: s.source_indices } := by
  unfold check_source_component at h
  cases hidx : env.source_index s.release c with
  | error e => rw [hidx] at h; exact absurd h (by simp)
  | ok index =>
    rw [hidx] at h
    obtain ⟨is, hf⟩ := foldl_frame_issues (checkSourceEntry_frame env c index)
      index.names s
    refine ⟨index, is, rfl, ?_⟩
    have := h
    simp only [Except.ok.injEq] at this
    rw [← this, hf]

theorem phase1Step_frame (env : Env) (s : AptCheck) (c : String) :
    ∃ is si, phase1Step env s c = { s with issues := is, source_indices := si } := by
  unfold phase1Step
  cases h : check_source_component env c s with
  | error e => exact ⟨_, s.source_indices, rfl⟩
  | ok s' =>
    obtain ⟨index, is, _, hs'⟩ := check_source_component_ok env c s s' h
    exact ⟨is, (c, index) :: s.source_indices, hs'⟩

theorem phase1_frame (env : Env) (s : AptCheck) :
    ∃ is si, phase1 env s = { s with issues := is, source_indices := si } := by
  unfold phase1
  exact foldl_frame2 (phase1Step_frame env) s.components s

theorem checkPackageFile_frame (env : Env) (c : String) (s : AptCheck)
    (p : Package) :
    ∃ is, checkPackageFile env c s p = { s with issues := is } := by
  unfold checkPackageFile
  split
  · split
    · exact ⟨s.issues, rfl⟩
    · exact ⟨_, rfl⟩
  · exact ⟨s.issues, rfl⟩

theorem checkPackageDepends_frame (c : String) (index : PackageIndex)
    (s : AptCheck) (p : Package) :
    ∃ mp, checkPackageDepends c index s p = { s with missing_packages := mp } := by
  unfold checkPackageDepends
  apply foldl_frame_mp
  intro s d
  unfold dependStep
  split
  · exact ⟨s.missing_packages, rfl⟩
  · exact ⟨_, rfl⟩

theorem checkPackageSource_frame (c : String) (s : AptCheck) (p : Package) :
    ∃ ms, checkPackageSource c s p = { s with missing_sources := ms } := by
  unfold checkPackageSource
  split
  · split
    · split
      · exact ⟨s.missing_sources, rfl⟩
      · exact ⟨_, rfl⟩
    · exact ⟨s.missing_sources, rfl⟩
  · exact ⟨s.missing_sources, rfl⟩

theorem processBinaryPackage_frame (env : Env) (c : String) (a : Architecture)
    (index : PackageIndex) (s : AptCheck) (name : String) :
    ∃ is mp ms, processBinaryPackage env c a index s name =
      { s with issues := is, missing_packages := mp, missing_sources := ms } := by
  unfold processBinaryPackage
  split
  · exact ⟨_, s.missing_packages, s.missing_sources, rfl⟩
  · rename_i p hp
    obtain ⟨is1, h1⟩ := checkPackageFile_frame env c s p
    obtain ⟨mp2, h2⟩ := checkPackageDepends_frame c index (checkPackageFile env c s p) p
    obtain ⟨ms3, h3⟩ := checkPackageSource_frame c
      (checkPackageDepends c index (checkPackageFile env c s p) p) p
    refine ⟨is1, mp2, ms3, ?_⟩
    show checkPackageSource c (checkPackageDepends c index (checkPackageFile env c s p) p) p = _
    rw [h3, h2, h1]

theorem check_binary_component_ok (env : Env) (c : String) (a : Architecture)
    (s s' : AptCheck) (h : check_binary_component env c a s = .ok s') :
    ∃ is mp ms, s' =
      { s with issues := is, missing_packages := mp, missing_sources := ms } := by
  unfold check_binary_component at h
  cases hidx : env.package_index s.release c a with
  | error e => rw [hidx] at h; exact absurd h (by simp)
  | ok index =>
    rw [hidx] at h
    simp only [Except.ok.injEq] at h
    obtain ⟨is, mp, ms, hf⟩ := foldl_frame3
      (processBinaryPackage_frame env c a index) index.names s
    exact ⟨is, mp, ms, by rw [← h, hf]⟩

theorem phase2Step_frame (env : Env) (c : String) (s : AptCheck)
    (a : Architecture) :
    ∃ is mp ms, phase2Step env c s a =
      { s with issues := is, missing_packages := mp, missing_sources := ms } := by
  unfold phase2Step
  by_cases ha : a = Architecture.Source
  · exact ⟨s.issues, s.missing_packages, s.missing_sources, by simp [ha]⟩
  · simp only [ha, if_false]
    cases h : check_binary_component env c a s with
    | error e => exact ⟨_, s.missing_packages, s.missing_sources, rfl⟩
    | ok s' => exact check_binary_component_ok env c a s s' h

theorem phase2_frame (env : Env) (s : AptCheck) :
    ∃ is mp ms, phase2 env s =
      { s with issues := is, missing_packages := mp, missing_sources := ms } := by
  unfold phase2
  apply foldl_frame3
  intro s c
  exact foldl_frame3 (phase2Step_frame env c) s.architectures s

theorem runState_frame (env : Env) (s : AptCheck) :
    ∃ is si mp ms, runState env s =
      { s with issues := is, source_indices := si,
               missing_packages := mp, missing_sources := ms } := by
  unfold runState
  obtain ⟨is1, si1, h1⟩ := phase1_frame env s
  obtain ⟨is2, mp2, ms2, h2⟩ := phase2_frame env (phase1 env s)
  refine ⟨is2, si1, mp2, ms2, ?_⟩
  rw [h2, h1]

/-! ### Instrumented run: the order of per-unit checks in `AptCheck::check` -/

/-- One per-unit check performed by `AptCheck::check`, with the component
(and architecture) it concerned and whether its index build succeeded. -/
inductive CheckEvent where
  | sourceCheck : String → Bool → CheckEvent
  | binaryCheck : String → Architecture → Bool → CheckEvent
deriving DecidableEq, Repr

def CheckEvent.isSourceCheck : CheckEvent → Bool
  | .sourceCheck _ _ => true
  | .binaryCheck _ _ _ => false

def CheckEvent.isBinaryCheck : CheckEvent → Bool
  | .sourceCheck _ _ => false
  | .binaryCheck _ _ _ => true

/-- `phase1Step`, also recording the unit it executed. -/
def phase1StepT (env : Env) (p : List CheckEvent × AptCheck) (component : String) :
    List CheckEvent × AptCheck :=
  match check_source_component env component p.2 with
  | .ok s' => (p.1 ++ [CheckEvent.sourceCheck component true], s')
  | .error e => (p.1 ++ [CheckEvent.sourceCheck component false], phase1Fail component e p.2)

/-- `phase2Step`, also recording the unit it executed (the skipped `Source`
architecture runs no unit and records nothing). -/
def phase2StepT (env : Env) (component : String) (p : List CheckEvent × AptCheck)
    (architecture : Architecture) : List CheckEvent × AptCheck :=
  if architecture = Architecture.Source then p
  else
    match check_binary_component env component architecture p.2 with
    | .ok s' => (p.1 ++ [CheckEvent.binaryCheck component architecture true], s')
    | .error e =>
      (p.1 ++ [CheckEvent.binaryCheck component architecture false],
       phase2Fail component architecture e p.2)

def phase1T (env : Env) (p : List CheckEvent × AptCheck) : List CheckEvent × AptCheck :=
  p.2.components.foldl (phase1StepT env) p

def phase2T (env : Env) (p : List CheckEvent × AptCheck) : List CheckEvent × AptCheck :=
  p.2.components.foldl
    (fun p component => p.2.architectures.foldl (phase2StepT env component) p) p

/-- `AptCheck::check` with its per-unit event trace. -/
def checkT (env : Env) (s : AptCheck) : List CheckEvent × AptCheck :=
  phase2T env (phase1T env ([], s))

theorem phase1StepT_snd (env : Env) (p : List CheckEvent × AptCheck) (c : String) :
    (phase1StepT env p c).2 = phase1Step env p.2 c := by
  cases h : check_source_component env c p.2 <;>
    simp [phase1StepT, phase1Step, h]

theorem phase2StepT_snd (env : Env) (c : String) (p : List CheckEvent × AptCheck)
    (a : Architecture) :
    (phase2StepT env c p a).2 = phase2Step env c p.2 a := by
  by_cases ha : a = Architecture.Source
  · simp [phase2StepT, phase2Step, ha]
  · cases h : check_binary_component env c a p.2 <;>
      simp [phase2StepT, phase2Step, ha, h]

theorem phase1T_snd (env : Env) (p : List CheckEvent × AptCheck) :
    (phase1T env p).2 = phase1 env p.2 := by
  unfold phase1T phase1
  exact foldl_hom2 Prod.snd (phase1StepT env) (phase1Step env)
    (phase1StepT_snd env) p.2.components p

theorem phase2T_snd (env : Env) (p : List CheckEvent × AptCheck) :
    (phase2T env p).2 = phase2 env p.2 := by
  unfold phase2T phase2
  apply foldl_hom2 Prod.snd _ _
  intro p c
  exact foldl_hom2 Prod.snd (phase2StepT env c) (phase2Step env c)
    (phase2StepT_snd env c) p.2.architectures p

theorem checkT_snd (env : Env) (s : AptCheck) :
    (checkT env s).2 = phase2 env (phase1 env s) := by
  unfold checkT
  rw [phase2T_snd, phase1T_snd]

theorem phase1T_trace (env : Env) (l : List String)
    (p : List CheckEvent × AptCheck) :
    ∃ t, (l.foldl (phase1StepT env) p).1 = p.1 ++ t ∧
      t.length = l.length ∧ ∀ ev ∈ t, ev.isSourceCheck = true := by
  induction l generalizing p with
  | nil => exact ⟨[], by simp, rfl, by simp⟩
  | cons c l ih =>
    have hstep : ∃ ev, (phase1StepT env p c).1 = p.1 ++ [ev] ∧
        ev.isSourceCheck = true := by
      cases h : check_source_component env c p.2 with
      | ok s' =>
        exact ⟨CheckEvent.sourceCheck c true, by simp [phase1StepT, h], rfl⟩
      | error e =>
        exact ⟨CheckEvent.sourceCheck c false, by simp [phase1StepT, h], rfl⟩
    obtain ⟨ev, he, hs⟩ := hstep
    obtain ⟨t, ht, hlen, hall⟩ := ih (phase1StepT env p c)
    refine ⟨ev :: t, ?_, by simp [hlen], ?_⟩
    · rw [List.foldl_cons, ht, he, List.append_assoc]
      rfl
    · intro x hx
      rcases List.mem_cons.mp hx with hx | hx
      · rw [hx]; exact hs
      · exact hall x hx

theorem phase2T_inner_trace (env : Env) (c : String) (l : List Architecture)
    (p : List CheckEvent × AptCheck) :
    ∃ t, (l.foldl (phase2StepT env c) p).1 = p.1 ++ t ∧
      ∀ ev ∈ t, ev.isBinaryCheck = true := by
  induction l generalizing p with
  | nil => exact ⟨[], by simp, by simp⟩
  | cons a l ih =>
    have hstep : ∃ t0, (phase2StepT env c p a).1 = p.1 ++ t0 ∧
        ∀ ev ∈ t0, ev.isBinaryCheck = true := by
      by_cases ha : a = Architecture.Source
      · exact ⟨[], by simp [phase2StepT, ha], by simp⟩
      · cases h : check_binary_component env c a p.2 with
        | ok s' =>
          refine ⟨[CheckEvent.binaryCheck c a true], by simp [phase2StepT, ha, h], ?_⟩
          intro ev hev
          rw [List.mem_singleton.mp hev]; rfl
        | error e =>
          refine ⟨[CheckEvent.binaryCheck c a false], by simp [phase2StepT, ha, h], ?_⟩
          intro ev hev
          rw [List.mem_singleton.mp hev]; rfl
    obtain ⟨t0, he, hs⟩ := hstep
    obtain ⟨t, ht, hall⟩ := ih (phase2StepT env c p a)
    refine ⟨t0 ++ t, ?_, ?_⟩
    · rw [List.foldl_cons, ht, he, List.append_assoc]
    · intro x hx
      rcases List.mem_append.mp hx with hx | hx
      · exact hs x hx
      · exact hall x hx

theorem phase2T_trace (env : Env) (l : List String)
    (p : List CheckEvent × AptCheck) :
    ∃ t, (l.foldl
        (fun p component => p.2.architectures.foldl (phase2StepT env component) p) p).1 =
        p.1 ++ t ∧ ∀ ev ∈ t, ev.isBinaryCheck = true := by
  induction l generalizing p with
  | nil => exact ⟨[], by simp, by simp⟩
  | cons c l ih =>
    obtain ⟨t0, he, hs⟩ := phase2T_inner_trace env c p.2.architectures p
    obtain ⟨t, ht, hall⟩ := ih (p.2.architectures.foldl (phase2StepT env c) p)
    refine ⟨t0 ++ t, ?_, ?_⟩
    · rw [List.foldl_cons, ht, he, List.append_assoc]
    · intro x hx
      rcases List.mem_append.mp hx with hx | hx
      · exact hs x hx
      · exact hall x hx

/-! ### Shared concrete fixtures for witnesses -/

def relTrivial : Release := { components := [], architectures := [] }

def errDl : Error := Error.new "unavailable" ErrorType.Download

def envTrivial : Env :=
  { source_index := fun _ _ => Except.error errDl,
    package_index := fun _ _ _ => Except.error errDl,
    get_etag := fun _ => Except.ok (),
    check_compliance := Except.ok (),
    arch_from_str := fun _ => Except.error (Error.new "bad arch" ErrorType.ApiUsage),
    from_distro := Except.ok relTrivial }

def sTrivial : AptCheck :=
  { release := relTrivial, components := [], architectures := [],
    binary_indices := [], source_indices := [], issues := [],
    missing_packages := [], missing_sources := [], check_files := false }

/-! ### Claims -/

theorem isEmpty_eq_nil {α : Type} (l : List α) : l.isEmpty = true ↔ l = [] := by
  cases l <;> simp

/-- Claim C1: whenever `check_repo` returns `Ok(b)`, the boolean `b` is true
if and only if the issues, missing_packages and missing_sources collections
of the final state are all empty. -/
theorem check_repo_success_iff_no_findings (env : Env) (s : AptCheck)
    (b : Bool) (s' : AptCheck)
    (h : AptCheck.check_repo env s = Except.ok (b, s')) :
    b = true ↔ s'.issues = [] ∧ s'.missing_packages = [] ∧ s'.missing_sources = [] := by
  have hr : AptCheck.check_repo env s =
      Except.ok ((runState env s).issues.isEmpty &&
        (runState env s).missing_packages.isEmpty &&
        (runState env s).missing_sources.isEmpty, runState env s) := rfl
  rw [hr] at h
  simp only [Except.ok.injEq, Prod.mk.injEq] at h
  obtain ⟨hb, hs⟩ := h
  subst hs
  rw [← hb]
  simp [Bool.and_eq_true, isEmpty_eq_nil, and_assoc]

/-- Concrete instance of C1: on an empty selection the run returns
`Ok(true)` and all finding collections are indeed empty. -/
theorem check_repo_success_iff_no_findings_witness :
    true = true ↔ sTrivial.issues = [] ∧ sTrivial.missing_packages = [] ∧
      sTrivial.missing_sources = [] :=
  check_repo_success_iff_no_findings envTrivial sTrivial true sTrivial rfl

/-- Claim C2: the run of `AptCheck::check` is the Phase 1 fold followed by
the Phase 2 fold; its event trace is a block of source-check events (one
per requested component) followed exclusively by binary-check events, and
Phase 2 leaves the source-index map built by Phase 1 untouched. -/
theorem phase1_completes_before_phase2 (env : Env) (s : AptCheck) :
    AptCheck.check env s = Except.ok ((checkT env s).2) ∧
    (checkT env s).2 = phase2 env (phase1 env s) ∧
    (∃ l1 l2, (checkT env s).1 = l1 ++ l2 ∧
      l1.length = s.components.length ∧
      (∀ ev ∈ l1, ev.isSourceCheck = true) ∧
      (∀ ev ∈ l2, ev.isBinaryCheck = true)) ∧
    (phase2 env (phase1 env s)).source_indices = (phase1 env s).source_indices := by
  refine ⟨?_, checkT_snd env s, ?_, ?_⟩
  · rw [checkT_snd]; rfl
  · obtain ⟨t1, ht1, hlen1, hall1⟩ := phase1T_trace env s.components ([], s)
    obtain ⟨t2, ht2, hall2⟩ := phase2T_trace env (phase1T env ([], s)).2.components
      (phase1T env ([], s))
    refine ⟨t1, t2, ?_, hlen1, hall1, hall2⟩
    show (phase2T env (phase1T env ([], s))).1 = t1 ++ t2
    rw [phase2T]
    rw [ht2]
    show (phase1T env ([], s)).1 ++ t2 = t1 ++ t2
    rw [phase1T]
    rw [ht1]
    rfl
  · obtain ⟨is, mp, ms, h⟩ := phase2_frame env (phase1 env s)
    rw [h]

/-- Claim C3: a failure of a Phase 1 or Phase 2 unit is caught at the unit
boundary and recorded as exactly one issue for that component and
architecture, everything else unchanged; `check` and `check_repo` never
propagate an error out of the per-unit processing. -/
theorem unit_errors_contained (env : Env) (s : AptCheck) :
    (∀ component e, check_source_component env component s = Except.error e →
      phase1Step env s component =
        { s with issues := s.issues ++
            [(component, Architecture.Source,
              Error.new s!"Checking sources of component {component} failed: {e}"
                ErrorType.Download)] }) ∧
    (∀ component architecture e, architecture ≠ Architecture.Source →
      check_binary_component env component architecture s = Except.error e →
      phase2Step env component s architecture =
        { s with issues := s.issues ++
            [(component, architecture,
              Error.new
                s!"Checking component {component} for architecture {architecture} failed: {e}"
                ErrorType.Download)] }) ∧
    (∃ s', AptCheck.check env s = Except.ok s') ∧
    (∃ r, AptCheck.check_repo env s = Except.ok r) := by
  refine ⟨?_, ?_, ⟨_, rfl⟩, ⟨_, rfl⟩⟩
  · intro component e h
    unfold phase1Step
    rw [h]
    rfl
  · intro component architecture e ha h
    unfold phase2Step
    rw [if_neg ha, h]
    rfl

/-- Concrete instance of C3: both unit kinds fail on `envTrivial` and each
failure becomes one issue while the run still returns `Ok`. -/
theorem unit_errors_contained_witness :
    phase1Step envTrivial sTrivial "main" =
      { sTrivial with issues := sTrivial.issues ++
          [("main", Architecture.Source,
            Error.new "Checking sources of component main failed: unavailable"
              ErrorType.Download)] } ∧
    phase2Step envTrivial "main" sTrivial (Architecture.Arch "amd64") =
      { sTrivial with issues := sTrivial.issues ++
          [("main", Architecture.Arch "amd64",
            Error.new "Checking component main for architecture amd64 failed: unavailable"
              ErrorType.Download)] } ∧
    (∃ s', AptCheck.check envTrivial sTrivial = Except.ok s') ∧
    (∃ r, AptCheck.check_repo envTrivial sTrivial = Except.ok r) := by
  obtain ⟨h1, h2, h3, h4⟩ := unit_errors_contained envTrivial sTrivial
  exact ⟨h1 "main" errDl rfl,
    h2 "main" (Architecture.Arch "amd64") errDl (by decide) rfl, h3, h4⟩

/-- Concrete fixtures: a binary package with an artifact link, an index
resolving exactly it, and environments that fail or pass the probe. -/
def pkgA : Package :=
  { package := "A", version := "1.0", architecture := Architecture.Arch "amd64",
    depends := [], source := none, link := { url := "http://repo/pool/A.deb" } }

def idxA : PackageIndex :=
  { names := ["A"],
    get := fun name constraint =>
      match constraint with
      | none => if name = "A" then some pkgA else none
      | some _ => none }

def envProbeFail : Env :=
  { envTrivial with
    package_index := fun _ _ _ => Except.ok idxA,
    get_etag := fun _ => Except.error errDl }

def sFiles : AptCheck := { sTrivial with check_files := true }

/-- Claim C4: with file checking enabled, a failed probe of a binary
package's artifact link is recorded as an issue carrying the `Source`
architecture sentinel, for every architecture the index was built for. -/
theorem probe_failure_tagged_source (env : Env) (component : String)
    (architecture : Architecture) (index : PackageIndex) (s : AptCheck)
    (name : String) (package : Package) (e : Error)
    (hget : index.get name none = some package)
    (hcf : s.check_files = true)
    (hprobe : env.get_etag package.link.url = Except.error e) :
    (processBinaryPackage env component architecture index s name).issues =
      s.issues ++ [(component, Architecture.Source,
        Error.new (brokenFileMessage package.package package.link.url e)
          ErrorType.Download)] := by
  unfold processBinaryPackage
  rw [hget]
  have hfile : checkPackageFile env component s package =
      { s with issues := s.issues ++ [(component, Architecture.Source,
          Error.new (brokenFileMessage package.package package.link.url e)
            ErrorType.Download)] } := by
    unfold checkPackageFile
    simp [hcf, hprobe]
  show (checkPackageSource component
      (checkPackageDepends component index (checkPackageFile env component s package) package)
      package).issues = _
  obtain ⟨ms3, h3⟩ := checkPackageSource_frame component
    (checkPackageDepends component index (checkPackageFile env component s package) package)
    package
  obtain ⟨mp2, h2⟩ := checkPackageDepends_frame component index
    (checkPackageFile env component s package) package
  rw [h3, h2, hfile]

/-- Concrete instance of C4: the index was built for architecture arm64,
yet the probe-failure issue carries the `Source` sentinel. -/
theorem probe_failure_tagged_source_witness :
    (processBinaryPackage envProbeFail "main" (Architecture.Arch "arm64") idxA
        sFiles "A").issues =
      sFiles.issues ++ [("main", Architecture.Source,
        Error.new (brokenFileMessage "A" "http://repo/pool/A.deb" errDl)
          ErrorType.Download)] :=
  probe_failure_tagged_source envProbeFail "main" (Architecture.Arch "arm64") idxA
    sFiles "A" pkgA errDl rfl rfl rfl

theorem checkPackageSource_eq (component : String) (u : AptCheck) (package : Package)
    (source : String) (sidx : SourceIndex)
    (hsrc : package.source = some source)
    (hidx : getSourceIndex u.source_indices component = some sidx) :
    checkPackageSource component u package =
      { u with missing_sources := u.missing_sources ++
          (match sidx.get source (some (exactSourceConstraint source package)) with
           | some _ => []
           | none => [(component, package.package, source)]) } := by
  unfold checkPackageSource
  simp only [hsrc, hidx]
  cases hres : sidx.get source (some (exactSourceConstraint source package)) with
  | some q => simp
  | none => rfl

/-- Claim C6: for a resolvable binary package declaring a source, when the
component's source index exists the source name is resolved under the
`Exact` constraint built from the package's own architecture and version,
and a missing-source record is appended exactly when that resolution
returns nothing. -/
theorem source_resolved_with_exact_constraint (env : Env) (component : String)
    (architecture : Architecture) (index : PackageIndex) (s : AptCheck)
    (name : String) (package : Package) (source : String) (sidx : SourceIndex)
    (hget : index.get name none = some package)
    (hsrc : package.source = some source)
    (hidx : getSourceIndex s.source_indices component = some sidx) :
    (processBinaryPackage env component architecture index s name).missing_sources =
      s.missing_sources ++
        (match sidx.get source (some
            { name := source, architecture := package.architecture,
              relation := some VersionRelation.Exact,
              version := some package.version }) with
         | some _ => []
         | none => [(component, package.package, source)]) := by
  unfold processBinaryPackage
  rw [hget]
  show (checkPackageSource component
      (checkPackageDepends component index (checkPackageFile env component s package) package)
      package).missing_sources = _
  obtain ⟨is1, h1⟩ := checkPackageFile_frame env component s package
  obtain ⟨mp2, h2⟩ := checkPackageDepends_frame component index
    (checkPackageFile env component s package) package
  have hu : checkPackageDepends component index (checkPackageFile env component s package)
      package = { s with issues := is1, missing_packages := mp2 } := by
    rw [h2, h1]
  rw [hu]
  rw [checkPackageSource_eq component { s with issues := is1, missing_packages := mp2 }
    package source sidx hsrc hidx]
  rfl

/-- Concrete fixtures for the source check: a package declaring a source,
its index, and an empty source index that resolves nothing. -/
def sidxEmpty : SourceIndex := { names := [], get := fun _ _ => none }

def pkgB : Package :=
  { package := "B", version := "2.0", architecture := Architecture.Arch "amd64",
    depends := [], source := some "b-src", link := { url := "http://repo/pool/B.deb" } }

def idxB : PackageIndex :=
  { names := ["B"],
    get := fun name constraint =>
      match constraint with
      | none => if name = "B" then some pkgB else none
      | some _ => none }

def sWithSrcIdx : AptCheck := { sTrivial with source_indices := [("main", sidxEmpty)] }

/-- Concrete instance of C6: the empty source index cannot resolve "b-src"
under the exact constraint, so one missing-source record appears. -/
theorem source_resolved_with_exact_constraint_witness :
    (processBinaryPackage envTrivial "main" (Architecture.Arch "amd64") idxB
        sWithSrcIdx "B").missing_sources =
      sWithSrcIdx.missing_sources ++ [("main", "B", "b-src")] :=
  source_resolved_with_exact_constraint envTrivial "main" (Architecture.Arch "amd64")
    idxB sWithSrcIdx "B" pkgB "b-src" sidxEmpty rfl rfl rfl

theorem dependStep_resolved (component : String) (index : PackageIndex)
    (package : Package) (u : AptCheck) (d : PackageVersion) (q : Package)
    (hd : index.get d.name (some d) = some q) :
    dependStep component index package u d = u := by
  unfold dependStep
  rw [hd]

theorem dependStep_unresolved (component : String) (index : PackageIndex)
    (package : Package) (u : AptCheck) (d : PackageVersion)
    (hd : index.get d.name (some d) = none) :
    dependStep component index package u d =
      { u with missing_packages :=
          u.missing_packages ++ [(component, package.package, d)] } := by
  unfold dependStep
  rw [hd]

theorem checkPackageDepends_missing_packages (component : String)
    (index : PackageIndex) (u : AptCheck) (package : Package) :
    (checkPackageDepends component index u package).missing_packages =
      u.missing_packages ++
        (package.depends.filter
          (fun d => (index.get d.name (some d)).isNone)).map
          (fun d => (component, package.package, d)) := by
  unfold checkPackageDepends
  generalize package.depends = l
  induction l generalizing u with
  | nil => simp
  | cons d l ih =>
    rw [List.foldl_cons]
    cases hd : index.get d.name (some d) with
    | some q =>
      rw [dependStep_resolved component index package u d q hd, ih u]
      simp [List.filter_cons, hd]
    | none =>
      rw [dependStep_unresolved component index package u d hd,
        ih { u with missing_packages :=
          u.missing_packages ++ [(component, package.package, d)] }]
      simp [List.filter_cons, hd]

/-- Claim C7 (amended): for a resolvable binary package, the dependency
check appends exactly one missing-dependency record per occurrence of an
unresolvable constraint in the package's declared dependency list — the
resulting segment is literally the filtered dependency list, so the same
(component, package, constraint) triple repeats when the constraint is
declared twice or the package occurs in several architecture indices. -/
theorem missing_dependency_per_occurrence (env : Env) (component : String)
    (architecture : Architecture) (index : PackageIndex) (s : AptCheck)
    (name : String) (package : Package)
    (hget : index.get name none = some package) :
    (processBinaryPackage env component architecture index s name).missing_packages =
      s.missing_packages ++
        (package.depends.filter
          (fun d => (index.get d.name (some d)).isNone)).map
          (fun d => (component, package.package, d)) := by
  unfold processBinaryPackage
  rw [hget]
  show (checkPackageSource component
      (checkPackageDepends component index (checkPackageFile env component s package) package)
      package).missing_packages = _
  obtain ⟨ms3, h3⟩ := checkPackageSource_frame component
    (checkPackageDepends component index (checkPackageFile env component s package) package)
    package
  rw [h3]
  show (checkPackageDepends component index (checkPackageFile env component s package)
      package).missing_packages = _
  rw [checkPackageDepends_missing_packages]
  obtain ⟨is1, h1⟩ := checkPackageFile_frame env component s package
  rw [h1]

/-- Fixtures for the duplicate-dependency run: one package declaring the
same unresolvable constraint twice, checked for one architecture. -/
def depLibx : PackageVersion :=
  { name := "libx", architecture := Architecture.Arch "amd64",
    relation := none, version := none }

def pkgDup : Package :=
  { package := "A", version := "1.0", architecture := Architecture.Arch "amd64",
    depends := [depLibx, depLibx], source := none,
    link := { url := "http://repo/pool/A.deb" } }

def idxDup : PackageIndex :=
  { names := ["A"],
    get := fun name constraint =>
      match constraint with
      | none => if name = "A" then some pkgDup else none
      | some _ => none }

def relMain : Release :=
  { components := ["main"], architectures := [Architecture.Arch "amd64"] }

def envDup : Env :=
  { source_index := fun _ _ => Except.ok sidxEmpty,
    package_index := fun _ _ _ => Except.ok idxDup,
    get_etag := fun _ => Except.ok (),
    check_compliance := Except.ok (),
    arch_from_str := fun _ => Except.error (Error.new "bad arch" ErrorType.ApiUsage),
    from_distro := Except.ok relMain }

def s0Dup : AptCheck :=
  { release := relMain, components := ["main"],
    architectures := [Architecture.Arch "amd64"],
    binary_indices := [], source_indices := [], issues := [],
    missing_packages := [], missing_sources := [], check_files := false }

/-- Counterexample to claim C7 as stated: on a legitimately initialized
run whose single package declares the same unresolvable dependency twice,
the finished Report holds two identical MissingDependency entries for the
same (component, package, constraint) — not exactly one. -/
theorem missing_dependency_duplicate_counterexample :
    AptCheck.new envDup relMain [] [] false = Except.ok s0Dup ∧
    (runState envDup s0Dup).missing_packages.count ("main", "A", depLibx) = 2 := by
  constructor
  · rfl
  · decide

/-- Concrete instance of C7 (amended): the duplicated unresolvable
constraint yields exactly one record per declaration occurrence. -/
theorem missing_dependency_per_occurrence_witness :
    (processBinaryPackage envDup "main" (Architecture.Arch "amd64") idxDup
        s0Dup "A").missing_packages =
      s0Dup.missing_packages ++ [("main", "A", depLibx), ("main", "A", depLibx)] :=
  missing_dependency_per_occurrence envDup "main" (Architecture.Arch "amd64") idxDup
    s0Dup "A" pkgDup rfl

theorem new_ok_fields (env : Env) (release : Release) (cs as : List String)
    (cf : Bool) (s0 : AptCheck)
    (h : AptCheck.new env release cs as cf = Except.ok s0) :
    s0.release = release ∧ s0.binary_indices = [] ∧ s0.source_indices = [] ∧
    s0.issues = [] ∧ s0.missing_packages = [] ∧ s0.missing_sources = [] ∧
    s0.check_files = cf := by
  unfold AptCheck.new at h
  split at h
  · simp at h
  · simp only [Except.ok.injEq] at h
    subst h
    exact ⟨rfl, rfl, rfl, rfl, rfl, rfl, rfl⟩

/-- Invariant for C5 during Phase 1: the release is fixed, component `c`
has no stored source index, and no missing-source record mentions `c`. -/
def inv5 (release : Release) (c : String) (s : AptCheck) : Prop :=
  s.release = release ∧ getSourceIndex s.source_indices c = none ∧
    ∀ t ∈ s.missing_sources, t.1 ≠ c

/-- Invariant for C5 during Phase 2 (the source-index map is read-only
there): no index stored for `c`, no missing-source record mentions `c`. -/
def inv5b (c : String) (s : AptCheck) : Prop :=
  getSourceIndex s.source_indices c = none ∧ ∀ t ∈ s.missing_sources, t.1 ≠ c

theorem inv5_phase1Step (env : Env) (release : Release) (c : String) (e : Error)
    (henv : env.source_index release c = Except.error e)
    (s : AptCheck) (component : String) (h : inv5 release c s) :
    inv5 release c (phase1Step env s component) := by
  obtain ⟨hrel, hidx, hms⟩ := h
  unfold phase1Step
  cases hcs : check_source_component env component s with
  | error e' => exact ⟨hrel, hidx, hms⟩
  | ok s' =>
    obtain ⟨index, is, hsi, hs'⟩ := check_source_component_ok env component s s' hcs
    rw [hs']
    by_cases hc : component = c
    · subst hc
      rw [hrel, henv] at hsi
      exact absurd hsi (by simp)
    · refine ⟨hrel, ?_, hms⟩
      show getSourceIndex ((component, index) :: s.source_indices) c = none
      simp only [getSourceIndex]
      rw [if_neg hc]
      exact hidx

theorem inv5b_checkPackageSource (c component : String) (s : AptCheck)
    (p : Package) (h : inv5b c s) :
    inv5b c (checkPackageSource component s p) := by
  obtain ⟨hidx, hms⟩ := h
  unfold checkPackageSource
  split
  · rename_i source hsrc
    split
    · rename_i sidx hgeti
      split
      · exact ⟨hidx, hms⟩
      · refine ⟨hidx, ?_⟩
        intro t ht
        rcases List.mem_append.mp ht with ht | ht
        · exact hms t ht
        · rw [List.mem_singleton.mp ht]
          show component ≠ c
          intro hcc
          rw [hcc, hidx] at hgeti
          exact absurd hgeti (by simp)
    · exact ⟨hidx, hms⟩
  · exact ⟨hidx, hms⟩

theorem inv5b_processBinaryPackage (env : Env) (c component : String)
    (a : Architecture) (index : PackageIndex) (s : AptCheck) (name : String)
    (h : inv5b c s) :
    inv5b c (processBinaryPackage env component a index s name) := by
  obtain ⟨hidx, hms⟩ := h
  unfold processBinaryPackage
  split
  · exact ⟨hidx, hms⟩
  · rename_i p hp
    show inv5b c (checkPackageSource component
      (checkPackageDepends component index (checkPackageFile env component s p) p) p)
    apply inv5b_checkPackageSource
    obtain ⟨is1, h1⟩ := checkPackageFile_frame env component s p
    obtain ⟨mp2, h2⟩ := checkPackageDepends_frame component index
      (checkPackageFile env component s p) p
    rw [h2, h1]
    exact ⟨hidx, hms⟩

theorem inv5b_phase2Step (env : Env) (c component : String) (s : AptCheck)
    (a : Architecture) (h : inv5b c s) :
    inv5b c (phase2Step env component s a) := by
  unfold phase2Step
  split
  · exact h
  · cases hbc : check_binary_component env component a s with
    | error e => exact h
    | ok s' =>
      unfold check_binary_component at hbc
      cases hpi : env.package_index s.release component a with
      | error e => rw [hpi] at hbc; simp at hbc
      | ok index =>
        rw [hpi] at hbc
        simp only [Except.ok.injEq] at hbc
        rw [← hbc]
        exact foldl_inv (inv5b c) (processBinaryPackage env component a index)
          (fun u n hu => inv5b_processBinaryPackage env c component a index u n hu)
          index.names s h

theorem inv5b_phase2 (env : Env) (c : String) (s : AptCheck) (h : inv5b c s) :
    inv5b c (phase2 env s) := by
  unfold phase2
  apply foldl_inv (inv5b c)
  · intro u comp hu
    exact foldl_inv (inv5b c) (phase2Step env comp)
      (fun v a hv => inv5b_phase2Step env c comp v a hv) u.architectures u hu
  · exact h

/-- Claim C5: when a component's source index was never successfully built
(the provider fails for it), a completed run from a fresh `AptCheck::new`
state records no missing-source finding for that component. -/
theorem no_missing_source_without_index (env : Env) (release : Release)
    (components architectures : List String) (cf : Bool)
    (c : String) (e : Error) (s0 : AptCheck) (b : Bool) (s' : AptCheck)
    (p src : String)
    (hnew : AptCheck.new env release components architectures cf = Except.ok s0)
    (hsrc : env.source_index release c = Except.error e)
    (hrun : AptCheck.check_repo env s0 = Except.ok (b, s')) :
    (c, p, src) ∉ s'.missing_sources := by
  obtain ⟨hrel, hbi, hsi, hiss, hmp, hms, hcf⟩ :=
    new_ok_fields env release components architectures cf s0 hnew
  have hr : AptCheck.check_repo env s0 = Except.ok
      ((runState env s0).issues.isEmpty && (runState env s0).missing_packages.isEmpty &&
        (runState env s0).missing_sources.isEmpty, runState env s0) := rfl
  rw [hr] at hrun
  simp only [Except.ok.injEq, Prod.mk.injEq] at hrun
  obtain ⟨hb, hseq⟩ := hrun
  subst hseq
  have hinv0 : inv5 release c s0 := by
    refine ⟨hrel, ?_, ?_⟩
    · rw [hsi]; rfl
    · rw [hms]; intro t ht; simp at ht
  have hinv1 : inv5 release c (phase1 env s0) := by
    unfold phase1
    exact foldl_inv (inv5 release c) (phase1Step env)
      (fun u comp hu => inv5_phase1Step env release c e hsrc u comp hu)
      s0.components s0 hinv0
  have hinv2 : inv5b c (runState env s0) := by
    unfold runState
    exact inv5b_phase2 env c (phase1 env s0) ⟨hinv1.2.1, hinv1.2.2⟩
  intro hmem
  exact hinv2.2 (c, p, src) hmem rfl

/-- Environment for the C5 instance: the source index of every component
fails to build, while the binary index lists the package "B" that declares
source "b-src". -/
def envNoSrc : Env :=
  { source_index := fun _ _ => Except.error errDl,
    package_index := fun _ _ _ => Except.ok idxB,
    get_etag := fun _ => Except.ok (),
    check_compliance := Except.ok (),
    arch_from_str := fun _ => Except.error (Error.new "bad arch" ErrorType.ApiUsage),
    from_distro := Except.ok relMain }

/-- Concrete instance of C5: the run checks package "B" (which declares a
source) while "main" has no source index, and records no missing-source
finding for "main". -/
theorem no_missing_source_without_index_witness :
    ("main", "B", "b-src") ∉ (runState envNoSrc s0Dup).missing_sources :=
  no_missing_source_without_index envNoSrc relMain [] [] false "main" errDl s0Dup
    ((runState envNoSrc s0Dup).issues.isEmpty &&
      (runState envNoSrc s0Dup).missing_packages.isEmpty &&
      (runState envNoSrc s0Dup).missing_sources.isEmpty)
    (runState envNoSrc s0Dup) "B" "b-src" rfl rfl rfl

/-! ### C8: with file checking off, probe outcomes cannot influence a run -/

theorem checkSourceEntry_nofiles (env env' : Env) (c : String) (index : SourceIndex)
    (s : AptCheck) (source : String) (hcf : s.check_files = false) :
    checkSourceEntry env c index s source = checkSourceEntry env' c index s source := by
  unfold checkSourceEntry
  split
  · simp [hcf]
  · rfl

theorem checkSourceEntry_check_files (env : Env) (c : String) (index : SourceIndex)
    (s : AptCheck) (source : String) :
    (checkSourceEntry env c index s source).check_files = s.check_files := by
  obtain ⟨is, h⟩ := checkSourceEntry_frame env c index s source
  rw [h]

theorem check_source_component_nofiles (env env' : Env) (c : String) (s : AptCheck)
    (hsi : env.source_index = env'.source_index) (hcf : s.check_files = false) :
    check_source_component env c s = check_source_component env' c s := by
  unfold check_source_component
  rw [hsi]
  split
  · rfl
  · rename_i index heq
    rw [foldl_congr_inv (fun u => u.check_files = false)
      (checkSourceEntry env c index) (checkSourceEntry env' c index)
      (fun u x hu => by
        show (checkSourceEntry env c index u x).check_files = false
        rw [checkSourceEntry_check_files]; exact hu)
      (fun u x hu => checkSourceEntry_nofiles env env' c index u x hu)
      index.names s hcf]

theorem phase1Step_check_files (env : Env) (s : AptCheck) (c : String) :
    (phase1Step env s c).check_files = s.check_files := by
  obtain ⟨is, si, h⟩ := phase1Step_frame env s c
  rw [h]

theorem phase1Step_nofiles (env env' : Env) (s : AptCheck) (c : String)
    (hsi : env.source_index = env'.source_index) (hcf : s.check_files = false) :
    phase1Step env s c = phase1Step env' s c := by
  unfold phase1Step
  rw [check_source_component_nofiles env env' c s hsi hcf]

theorem phase1_check_files (env : Env) (s : AptCheck) :
    (phase1 env s).check_files = s.check_files := by
  obtain ⟨is, si, h⟩ := phase1_frame env s
  rw [h]

theorem phase1_nofiles (env env' : Env) (s : AptCheck)
    (hsi : env.source_index = env'.source_index) (hcf : s.check_files = false) :
    phase1 env s = phase1 env' s := by
  unfold phase1
  exact foldl_congr_inv (fun u => u.check_files = false)
    (phase1Step env) (phase1Step env')
    (fun u c hu => by
      show (phase1Step env u c).check_files = false
      rw [phase1Step_check_files]; exact hu)
    (fun u c hu => phase1Step_nofiles env env' u c hsi hu)
    s.components s hcf

theorem checkPackageFile_nofiles (env : Env) (c : String) (s : AptCheck)
    (p : Package) (hcf : s.check_files = false) :
    checkPackageFile env c s p = s := by
  unfold checkPackageFile
  simp [hcf]

theorem processBinaryPackage_check_files (env : Env) (c : String) (a : Architecture)
    (index : PackageIndex) (s : AptCheck) (name : String) :
    (processBinaryPackage env c a index s name).check_files = s.check_files := by
  obtain ⟨is, mp, ms, h⟩ := processBinaryPackage_frame env c a index s name
  rw [h]

theorem processBinaryPackage_nofiles (env env' : Env) (c : String) (a : Architecture)
    (index : PackageIndex) (s : AptCheck) (name : String)
    (hcf : s.check_files = false) :
    processBinaryPackage env c a index s name =
      processBinaryPackage env' c a index s name := by
  unfold processBinaryPackage
  split
  · rfl
  · rename_i p hp
    show checkPackageSource c (checkPackageDepends c index (checkPackageFile env c s p) p) p =
      checkPackageSource c (checkPackageDepends c index (checkPackageFile env' c s p) p) p
    rw [checkPackageFile_nofiles env c s p hcf, checkPackageFile_nofiles env' c s p hcf]

theorem check_binary_component_nofiles (env env' : Env) (c : String)
    (a : Architecture) (s : AptCheck)
    (hpi : env.package_index = env'.package_index) (hcf : s.check_files = false) :
    check_binary_component env c a s = check_binary_component env' c a s := by
  unfold check_binary_component
  rw [hpi]
  split
  · rfl
  · rename_i index heq
    rw [foldl_congr_inv (fun u => u.check_files = false)
      (processBinaryPackage env c a index) (processBinaryPackage env' c a index)
      (fun u n hu => by
        show (processBinaryPackage env c a index u n).check_files = false
        rw [processBinaryPackage_check_files]; exact hu)
      (fun u n hu => processBinaryPackage_nofiles env env' c a index u n hu)
      index.names s hcf]

theorem phase2Step_check_files (env : Env) (c : String) (s : AptCheck)
    (a : Architecture) :
    (phase2Step env c s a).check_files = s.check_files := by
  obtain ⟨is, mp, ms, h⟩ := phase2Step_frame env c s a
  rw [h]

theorem phase2Step_nofiles (env env' : Env) (c : String) (s : AptCheck)
    (a : Architecture)
    (hpi : env.package_index = env'.package_index) (hcf : s.check_files = false) :
    phase2Step env c s a = phase2Step env' c s a := by
  unfold phase2Step
  split
  · rfl
  · rw [check_binary_component_nofiles env env' c a s hpi hcf]

theorem phase2_nofiles (env env' : Env) (s : AptCheck)
    (hpi : env.package_index = env'.package_index) (hcf : s.check_files = false) :
    phase2 env s = phase2 env' s := by
  unfold phase2
  apply foldl_congr_inv (fun u => u.check_files = false)
  · intro u c hu
    obtain ⟨is, mp, ms, h⟩ := foldl_frame3 (phase2Step_frame env c) u.architectures u
    rw [h]
    exact hu
  · intro u c hu
    exact foldl_congr_inv (fun v => v.check_files = false)
      (phase2Step env c) (phase2Step env' c)
      (fun v a hv => by
        show (phase2Step env c v a).check_files = false
        rw [phase2Step_check_files]; exact hv)
      (fun v a hv => phase2Step_nofiles env env' c v a hpi hv)
      u.architectures u hu
  · exact hcf

/-- Claim C8: with file checking disabled, two runs over the same index
providers produce identical results whatever the probe outcomes — so no
probe is consulted and no broken-link issue can appear. -/
theorem check_files_off_probe_noninterference (env env' : Env) (s : AptCheck)
    (hcf : s.check_files = false)
    (hsi : env.source_index = env'.source_index)
    (hpi : env.package_index = env'.package_index) :
    AptCheck.check_repo env s = AptCheck.check_repo env' s := by
  have h1 : phase1 env s = phase1 env' s := phase1_nofiles env env' s hsi hcf
  have hcf1 : (phase1 env s).check_files = false := by
    rw [phase1_check_files]
    exact hcf
  have h2 : runState env s = runState env' s := by
    unfold runState
    rw [← h1]
    exact phase2_nofiles env env' (phase1 env s) hpi hcf1
  calc AptCheck.check_repo env s
      = Except.ok ((runState env s).issues.isEmpty &&
          (runState env s).missing_packages.isEmpty &&
          (runState env s).missing_sources.isEmpty, runState env s) := rfl
    _ = Except.ok ((runState env' s).issues.isEmpty &&
          (runState env' s).missing_packages.isEmpty &&
          (runState env' s).missing_sources.isEmpty, runState env' s) := by rw [h2]
    _ = AptCheck.check_repo env' s := rfl

/-- The probe-failing twin of `envDup`. -/
def envDupBad : Env := { envDup with get_etag := fun _ => Except.error errDl }

/-- Concrete instance of C8: the same run with all probes failing instead
of succeeding returns the identical result when file checking is off. -/
theorem check_files_off_probe_noninterference_witness :
    AptCheck.check_repo envDup s0Dup = AptCheck.check_repo envDupBad s0Dup :=
  check_files_off_probe_noninterference envDup envDupBad s0Dup rfl rfl rfl

/-! ### C9: the exit-code convention of src/main.rs over src/lib.rs -/

/-- Claim C9 (amended): exit 0 requires a produced Report with no findings
AND a successful save; exit 1 requires a produced Report with findings AND
a successful save; exit 2 occurs when no Report was produced OR when the
Report was produced but persisting it failed. -/
theorem exit_code_characterization (env : Env) (save : AptCheck → Except Error Unit)
    (components architectures : List String) (cf : Bool) :
    (main_exit env save components architectures cf = 0 ↔
      ∃ st, lib_report env components architectures cf = some st ∧
        st.issues = [] ∧ st.missing_packages = [] ∧ st.missing_sources = [] ∧
        save st = Except.ok ()) ∧
    (main_exit env save components architectures cf = 1 ↔
      ∃ st, lib_report env components architectures cf = some st ∧
        ¬(st.issues = [] ∧ st.missing_packages = [] ∧ st.missing_sources = []) ∧
        save st = Except.ok ()) ∧
    (main_exit env save components architectures cf = 2 ↔
      lib_report env components architectures cf = none ∨
        ∃ st e, lib_report env components architectures cf = some st ∧
          save st = Except.error e) := by
  unfold main_exit exit_code lib_check_repo lib_report save_as_json
  cases hfd : env.from_distro with
  | error e => simp
  | ok release =>
    cases hnew : AptCheck.new env release components architectures cf with
    | error e => simp [hnew]
    | ok chk =>
      have hcr : AptCheck.check_repo env chk = Except.ok
          ((runState env chk).issues.isEmpty &&
            (runState env chk).missing_packages.isEmpty &&
            (runState env chk).missing_sources.isEmpty, runState env chk) := rfl
      cases hsave : save (runState env chk) with
      | error e => simp [hnew, hcr, hsave]
      | ok u =>
        cases u
        cases hb : (runState env chk).issues.isEmpty &&
            (runState env chk).missing_packages.isEmpty &&
            (runState env chk).missing_sources.isEmpty with
        | true =>
          have hempty : (runState env chk).issues = [] ∧
              (runState env chk).missing_packages = [] ∧
              (runState env chk).missing_sources = [] := by
            simpa [Bool.and_eq_true, isEmpty_eq_nil, and_assoc] using hb
          simp [hnew, hcr, hsave, hb, hempty.1, hempty.2.1, hempty.2.2]
        | false =>
          have hnempty : ¬((runState env chk).issues = [] ∧
              (runState env chk).missing_packages = [] ∧
              (runState env chk).missing_sources = []) := by
            intro hcon
            rw [hcon.1, hcon.2.1, hcon.2.2] at hb
            simp at hb
          simp [hnew, hcr, hsave, hb, hnempty]
          intro h1 h2 h3
          exact hnempty ⟨h1, h2, h3⟩

/-- A persistence oracle that always fails, as when result.json cannot be
created or written. -/
def saveFail : AptCheck → Except Error Unit :=
  fun _ => Except.error (Error.new "Saving result failed!" ErrorType.ApiUsage)

/-- Counterexample to claim C9 as stated: when writing result.json fails,
the CLI exits with code 2 although the check completed, a Report was
produced, and that Report holds no findings — so neither "exit 0 when the
check completes with no findings" nor "exit 2 only before a Report could
be produced" holds of the code. -/
theorem exit_code_convention_counterexample :
    main_exit envTrivial saveFail [] [] false = 2 ∧
    lib_report envTrivial [] [] false = some sTrivial ∧
    sTrivial.issues = [] ∧ sTrivial.missing_packages = [] ∧
    sTrivial.missing_sources = [] :=
  ⟨rfl, rfl, rfl, rfl, rfl⟩

/-! ### C10: `binary_indices` is created empty and never written -/

/-- Claim C10: `binary_indices` starts empty at `AptCheck::new`, no
operation of the run writes it, and the state persisted to result.json
therefore always carries an empty `binary_indices` list. -/
theorem binary_indices_never_written (env : Env) (save : AptCheck → Except Error Unit)
    (release : Release) (components architectures : List String) (cf : Bool)
    (s s0 st : AptCheck) :
    (runState env s).binary_indices = s.binary_indices ∧
    (AptCheck.new env release components architectures cf = Except.ok s0 →
      s0.binary_indices = []) ∧
    (lib_saved_report env save components architectures cf = some st →
      st.binary_indices = []) := by
  refine ⟨?_, ?_, ?_⟩
  · obtain ⟨is, si, mp, ms, h⟩ := runState_frame env s
    rw [h]
  · intro h
    exact (new_ok_fields env release components architectures cf s0 h).2.1
  · intro h
    unfold lib_saved_report at h
    split at h
    · simp at h
    · rename_i release' hfd
      split at h
      · simp at h
      · rename_i chk hnew
        split at h
        · rename_i e' heq3
          rw [show AptCheck.check_repo env chk = Except.ok
              ((runState env chk).issues.isEmpty &&
                (runState env chk).missing_packages.isEmpty &&
                (runState env chk).missing_sources.isEmpty, runState env chk)
              from rfl] at heq3
          simp at heq3
        · rename_i result heq3
          split at h
          · simp at h
          · simp only [Option.some.injEq] at h
            have hres : result = ((runState env chk).issues.isEmpty &&
                (runState env chk).missing_packages.isEmpty &&
                (runState env chk).missing_sources.isEmpty, runState env chk) := by
              rw [show AptCheck.check_repo env chk = Except.ok
                  ((runState env chk).issues.isEmpty &&
                    (runState env chk).missing_packages.isEmpty &&
                    (runState env chk).missing_sources.isEmpty, runState env chk)
                  from rfl] at heq3
              simp only [Except.ok.injEq] at heq3
              exact heq3.symm
            rw [← h, hres]
            show (runState env chk).binary_indices = []
            obtain ⟨is, si, mp, ms, hrs⟩ := runState_frame env chk
            rw [hrs]
            show chk.binary_indices = []
            exact (new_ok_fields env release' components architectures cf chk hnew).2.1

/-- Concrete instance of C10: the trivial run leaves `binary_indices`
empty, from `new` through the persisted state. -/
theorem binary_indices_never_written_witness :
    (runState envTrivial sTrivial).binary_indices = sTrivial.binary_indices ∧
    sTrivial.binary_indices = [] ∧ sTrivial.binary_indices = [] := by
  obtain ⟨h1, h2, h3⟩ := binary_indices_never_written envTrivial
    (fun _ => Except.ok ()) relTrivial [] [] false sTrivial sTrivial sTrivial
  exact ⟨h1, h2 rfl, h3 rfl⟩

end Aptcheckr
